import Mathlib

/-!
Relay connection manager (`relay/client/manager.go`).

A shallow embedding of `Manager` and `RelayTrack` and of the operations
`NewManager`, `Serve`, `OpenConn`, `RelayAddress`, `openConnVia`,
`deleteRelayConn` and `isForeignServer`.

Every Go statement that touches shared memory, a mutex or the relay `Client`
is one atomic action (`Act`).  A Go function is a tree of such actions
(`Prog`), written in the order of the source.  The same tree is executed in
two ways: `run` executes one call from start to end with no other goroutine
in between, and `Conc.step` executes one action of one goroutine, so that a
list of goroutine numbers is an interleaving.

The relay `Client` (`Connect`, `OpenConn`, `RelayRemoteAddress`) is not part of
this file of the repository: its answers are taken from an arbitrary
environment `Env`, a state machine over a world state that the theorems
quantify over.
-/

namespace RelayClient

/-! ## Values -/

/-- Go `error` values, identified by their message. -/
abbrev GoError := String

/-- The error built by `fmt.Errorf("relay client not connected")`. -/
def errNotConnected : GoError := "relay client not connected"

/-- A `net.Addr`: its `Network()` and `String()` forms. -/
structure NetAddr where
  network : String
  string : String
deriving DecidableEq, Repr

/-- A `net.Conn` handed out by a relay client: the client it runs over and the
peer it leads to. -/
structure Conn where
  via : Nat
  peerKey : String
deriving DecidableEq, Repr

/-- Pointer to a `Client` allocated by `NewClient`. -/
abbrev ClientRef := Nat

/-- Pointer to a `RelayTrack` allocated by `NewRelayTrack`. -/
abbrev TrackRef := Nat

/-- Result of a call whose receiver may be a nil pointer: the values the callee
returned, or `nilReceiver` when the call was made through a nil `*Client`. -/
inductive Ret (α : Type) where
  | ok (a : α)
  | err (e : GoError)
  | nilReceiver
deriving DecidableEq, Repr

/-- A Go `(value, error)` pair seen as a `Ret`. -/
def Ret.ofExcept {α : Type} : Except GoError α → Ret α
  | .ok a => .ok a
  | .error e => .err e

/-! ## `sync.RWMutex` -/

/-- State of a `sync.RWMutex`: whether the write lock is held and how many read
locks are held. -/
structure RWMutex where
  writer : Bool
  readers : Nat
deriving DecidableEq, Repr

/-- The zero value: nobody holds the mutex. -/
def RWMutex.free : RWMutex := { writer := false, readers := 0 }

/-- The mutex is held by nobody. -/
def RWMutex.isFree (mu : RWMutex) : Bool := !mu.writer && mu.readers == 0

/-- Method `Lock`: possible only when nobody holds the mutex; `none` means the caller
has to wait. -/
def RWMutex.Lock (mu : RWMutex) : Option RWMutex :=
  if mu.writer = false ∧ mu.readers = 0 then some { mu with writer := true } else none

/-- Method `Unlock`: releases the write lock; `none` when it is not held (fatal in Go). -/
def RWMutex.Unlock (mu : RWMutex) : Option RWMutex :=
  if mu.writer = true then some { mu with writer := false } else none

/-- Method `RLock`: possible only when no writer holds the mutex; `none` means the
caller has to wait. -/
def RWMutex.RLock (mu : RWMutex) : Option RWMutex :=
  if mu.writer = false then some { mu with readers := mu.readers + 1 } else none

/-- Method `RUnlock`: releases one read lock; `none` when none is held (fatal in Go). -/
def RWMutex.RUnlock (mu : RWMutex) : Option RWMutex :=
  if 0 < mu.readers then some { mu with readers := mu.readers - 1 } else none

/-! ## Data model -/

/-- Go `type RelayTrack struct { sync.RWMutex; relayClient *Client }`. -/
structure RelayTrack where
  mu : RWMutex
  relayClient : Option ClientRef
deriving DecidableEq, Repr

/-- Go `NewRelayTrack`: `&RelayTrack{}`, an unlocked track with a nil client. -/
def NewRelayTrack : RelayTrack := { mu := RWMutex.free, relayClient := none }

/-- The `Guard` built by `NewGuard(m.ctx, m.relayClient)`: it remembers its client. -/
structure Guard where
  relayClient : ClientRef
deriving DecidableEq, Repr

/-- The two callbacks the manager registers with `SetOnDisconnectListener`:
`m.reconnectGuard.OnDisconnected` and the closure
`func() { m.deleteRelayConn(serverAddress) }`. -/
inductive Listener where
  | guardOnDisconnected (g : Guard)
  | deleteRelayConn (serverAddress : String)
deriving DecidableEq, Repr

/-- What the manager gives to a `Client`: the arguments of `NewClient` and the
registered disconnect listener. -/
structure Client where
  serverAddress : String
  peerID : String
  onDisconnect : Option Listener
deriving DecidableEq, Repr

/-- The Go map `map[string]*RelayTrack` as an association list without
duplicate keys. -/
abbrev Registry := List (String × TrackRef)

/-- Map read `m[k]`. -/
def Registry.get (r : Registry) (k : String) : Option TrackRef := List.lookup k r

/-- Builtin `delete(m, k)`. -/
def Registry.delete (r : Registry) (k : String) : Registry := r.filter fun e => e.1 != k

/-- Map write `m[k] = v`: replaces an existing entry. -/
def Registry.set (r : Registry) (k : String) (v : TrackRef) : Registry :=
  (k, v) :: Registry.delete r k

/-- Go `type Manager struct`: the fields other than `ctx`, which is only passed on
to `NewClient` and `NewGuard`. -/
structure Manager where
  srvAddress : String
  peerID : String
  relayClient : Option ClientRef
  reconnectGuard : Option Guard
  relayClients : Registry
  relayClientsMutex : RWMutex
deriving DecidableEq, Repr

/-- Go `NewManager(ctx, serverAddress, peerID)`. -/
def NewManager (serverAddress peerID : String) : Manager :=
  { srvAddress := serverAddress
    peerID := peerID
    relayClient := none
    reconnectGuard := none
    relayClients := []
    relayClientsMutex := RWMutex.free }

/-! ## Actions -/

/-- The atomic actions of the manager code. -/
inductive Act where
  /-- read `m.srvAddress` -/
  | loadSrvAddress
  /-- read `m.peerID` -/
  | loadPeerID
  /-- read `m.relayClient` -/
  | loadRelayClient
  /-- write `m.relayClient = c` -/
  | storeRelayClient (c : ClientRef)
  /-- write `m.reconnectGuard = g` -/
  | storeReconnectGuard (g : Guard)
  /-- call `m.relayClientsMutex.RLock()` -/
  | mapRLock
  /-- call `m.relayClientsMutex.RUnlock()` -/
  | mapRUnlock
  /-- call `m.relayClientsMutex.Lock()` -/
  | mapLock
  /-- call `m.relayClientsMutex.Unlock()` -/
  | mapUnlock
  /-- read `m.relayClients[k]` -/
  | mapGet (k : String)
  /-- write `m.relayClients[k] = rt` -/
  | mapSet (k : String) (rt : TrackRef)
  /-- call `delete(m.relayClients, k)` -/
  | mapDelete (k : String)
  /-- call `NewRelayTrack()` -/
  | newRelayTrack
  /-- call `rt.Lock()` -/
  | trackLock (rt : TrackRef)
  /-- call `rt.Unlock()` -/
  | trackUnlock (rt : TrackRef)
  /-- call `rt.RLock()` -/
  | trackRLock (rt : TrackRef)
  /-- call `rt.RUnlock()` -/
  | trackRUnlock (rt : TrackRef)
  /-- read `rt.relayClient` -/
  | trackLoadClient (rt : TrackRef)
  /-- call `NewClient(m.ctx, serverAddress, peerID)` -/
  | newClient (serverAddress peerID : String)
  /-- call `c.Connect()` -/
  | connect (c : ClientRef)
  /-- call `c.SetOnDisconnectListener(l)` -/
  | setOnDisconnectListener (c : ClientRef) (l : Listener)
  /-- call `c.OpenConn(peerKey)`, where `c` may be nil -/
  | openConn (c : Option ClientRef) (peerKey : String)
  /-- call `c.RelayRemoteAddress()`, where `c` may be nil -/
  | relayRemoteAddress (c : Option ClientRef)
deriving DecidableEq, Repr

/-- The type of the value an action yields. -/
@[reducible] def Act.Resp : Act → Type
  | .loadSrvAddress => String
  | .loadPeerID => String
  | .loadRelayClient => Option ClientRef
  | .mapGet _ => Option TrackRef
  | .newRelayTrack => TrackRef
  | .trackLoadClient _ => Option ClientRef
  | .newClient _ _ => ClientRef
  | .connect _ => Option GoError
  | .openConn _ _ => Ret Conn
  | .relayRemoteAddress _ => Ret NetAddr
  | _ => Unit

/-- The relay `Client` as seen by the manager: `Connect` of the client at a
pointer dialing an address (`none` is success), `OpenConn` for a peer key, and
`RelayRemoteAddress`.  Each call may change the world. -/
structure Env (σ : Type) where
  connect : σ → ClientRef → String → Option GoError × σ
  openConn : σ → ClientRef → String → Except GoError Conn × σ
  relayRemoteAddress : σ → ClientRef → Except GoError NetAddr × σ

/-- The memory shared by all goroutines: the manager, the allocated tracks and
clients, the world behind the clients, and the log of the actions done so far. -/
structure State (σ : Type) where
  m : Manager
  tracks : List RelayTrack
  clients : List Client
  world : σ
  trace : List Act

/-- Replace the manager's registry mutex. -/
def State.withMapMutex {σ : Type} (st : State σ) (mu : RWMutex) : State σ :=
  { st with m := { st.m with relayClientsMutex := mu } }

/-- Replace the manager's registry. -/
def State.withMap {σ : Type} (st : State σ) (r : Registry) : State σ :=
  { st with m := { st.m with relayClients := r } }

/-- Apply a mutex operation to the mutex embedded in the track at `rt`. -/
def State.onTrackMutex {σ : Type} (st : State σ) (rt : TrackRef)
    (op : RWMutex → Option RWMutex) : Option (Unit × State σ) :=
  match st.tracks[rt]? with
  | none => none
  | some t =>
    match op t.mu with
    | none => none
    | some mu => some ((), { st with tracks := st.tracks.set rt { t with mu := mu } })

/-- Effect of one action on the shared memory; `none` when the action cannot
complete in this state (a lock that is not available, an unlock of a mutex that
is not held, a pointer that was never allocated). -/
def exec {σ : Type} (env : Env σ) : (a : Act) → State σ → Option (a.Resp × State σ)
  | .loadSrvAddress, st => some (st.m.srvAddress, st)
  | .loadPeerID, st => some (st.m.peerID, st)
  | .loadRelayClient, st => some (st.m.relayClient, st)
  | .storeRelayClient c, st => some ((), { st with m := { st.m with relayClient := some c } })
  | .storeReconnectGuard g, st =>
    some ((), { st with m := { st.m with reconnectGuard := some g } })
  | .mapRLock, st => (st.m.relayClientsMutex.RLock).map fun mu => ((), st.withMapMutex mu)
  | .mapRUnlock, st => (st.m.relayClientsMutex.RUnlock).map fun mu => ((), st.withMapMutex mu)
  | .mapLock, st => (st.m.relayClientsMutex.Lock).map fun mu => ((), st.withMapMutex mu)
  | .mapUnlock, st => (st.m.relayClientsMutex.Unlock).map fun mu => ((), st.withMapMutex mu)
  | .mapGet k, st => some (st.m.relayClients.get k, st)
  | .mapSet k rt, st => some ((), st.withMap (st.m.relayClients.set k rt))
  | .mapDelete k, st => some ((), st.withMap (st.m.relayClients.delete k))
  | .newRelayTrack, st => some (st.tracks.length, { st with tracks := st.tracks ++ [NewRelayTrack] })
  | .trackLock rt, st => st.onTrackMutex rt RWMutex.Lock
  | .trackUnlock rt, st => st.onTrackMutex rt RWMutex.Unlock
  | .trackRLock rt, st => st.onTrackMutex rt RWMutex.RLock
  | .trackRUnlock rt, st => st.onTrackMutex rt RWMutex.RUnlock
  | .trackLoadClient rt, st => (st.tracks[rt]?).map fun t => (t.relayClient, st)
  | .newClient a p, st =>
    some (st.clients.length,
      { st with clients := st.clients ++ [{ serverAddress := a, peerID := p, onDisconnect := none }] })
  | .connect c, st =>
    match st.clients[c]? with
    | none => none
    | some cl =>
      some ((env.connect st.world c cl.serverAddress).1,
        { st with world := (env.connect st.world c cl.serverAddress).2 })
  | .setOnDisconnectListener c l, st =>
    match st.clients[c]? with
    | none => none
    | some cl => some ((), { st with clients := st.clients.set c { cl with onDisconnect := some l } })
  | .openConn none _, st => some (Ret.nilReceiver, st)
  | .openConn (some c) p, st =>
    some (Ret.ofExcept (env.openConn st.world c p).1, { st with world := (env.openConn st.world c p).2 })
  | .relayRemoteAddress none, st => some (Ret.nilReceiver, st)
  | .relayRemoteAddress (some c), st =>
    some (Ret.ofExcept (env.relayRemoteAddress st.world c).1,
      { st with world := (env.relayRemoteAddress st.world c).2 })

/-- One action, recorded in the log. -/
def doAct {σ : Type} (env : Env σ) (a : Act) (st : State σ) : Option (a.Resp × State σ) :=
  match exec env a st with
  | none => none
  | some (r, st1) => some (r, { st1 with trace := st1.trace ++ [a] })

/-! ## Programs -/

/-- A Go function body: it returns, or does one action and continues with the
value the action yields. -/
inductive Prog (α : Type) where
  | ret (a : α)
  | act (a : Act) (k : a.Resp → Prog α)

/-- Sequencing of programs. -/
def Prog.bind {α β : Type} : Prog α → (α → Prog β) → Prog β
  | .ret a, f => f a
  | .act a k, f => .act a fun r => Prog.bind (k r) f

instance : Monad Prog where
  pure := Prog.ret
  bind := Prog.bind

/-- The program that does the single action `a`. -/
def Act.prog (a : Act) : Prog a.Resp := Prog.act a Prog.ret

/-- Execute a call from start to end with no other goroutine in between.
`none`: the call cannot complete on its own (it waits for a lock forever). -/
def run {σ α : Type} (env : Env σ) : Prog α → State σ → Option (α × State σ)
  | .ret a, st => some (a, st)
  | .act a k, st =>
    match doAct env a st with
    | none => none
    | some (r, st1) => run env (k r) st1

/-! ## The manager's methods -/

namespace Manager

/-- Go `func (m *Manager) Serve() error`; `none` is the nil error.  The new client
is stored in `m.relayClient` before anything else is done with it; the guard is
`NewGuard(m.ctx, m.relayClient)`, the listener its `OnDisconnected`, and the
later uses of `m.relayClient` in the body are uses of the pointer just stored. -/
def Serve : Prog (Option GoError) := do
  let srvAddress ← Act.prog .loadSrvAddress
  let peerID ← Act.prog .loadPeerID
  let c ← Act.prog (.newClient srvAddress peerID)
  Act.prog (.storeRelayClient c)
  Act.prog (.storeReconnectGuard { relayClient := c })
  Act.prog (.setOnDisconnectListener c (.guardOnDisconnected { relayClient := c }))
  let err ← Act.prog (.connect c)
  match err with
  | some e => pure (some e)
  | none => pure none

/-- Go `func (m *Manager) isForeignServer(address string) (bool, error)`. -/
def isForeignServer (address : String) : Prog (Ret Bool) := do
  let rc ← Act.prog .loadRelayClient
  let r ← Act.prog (.relayRemoteAddress rc)
  match r with
  | .err _ => pure (.err errNotConnected)
  | .nilReceiver => pure .nilReceiver
  | .ok rAddr => pure (.ok (rAddr.string != address))

/-- Go `func (m *Manager) RelayAddress() (net.Addr, error)`. -/
def RelayAddress : Prog (Ret NetAddr) := do
  let rc ← Act.prog .loadRelayClient
  match rc with
  | none => pure (.err errNotConnected)
  | some _ =>
    let rc1 ← Act.prog .loadRelayClient
    Act.prog (.relayRemoteAddress rc1)

/-- Go `func (m *Manager) openConnVia(serverAddress, peerKey string) (net.Conn, error)`.
The deferred `relayTrack.RUnlock()` runs after the call in the return statement. -/
def openConnVia (serverAddress peerKey : String) : Prog (Ret Conn) := do
  Act.prog .mapRLock
  let found ← Act.prog (.mapGet serverAddress)
  match found with
  | some relayTrack =>
    Act.prog (.trackRLock relayTrack)
    Act.prog .mapRUnlock
    let c ← Act.prog (.trackLoadClient relayTrack)
    let res ← Act.prog (.openConn c peerKey)
    Act.prog (.trackRUnlock relayTrack)
    pure res
  | none =>
    Act.prog .mapRUnlock
    let rt ← Act.prog .newRelayTrack
    Act.prog (.trackLock rt)
    Act.prog .mapLock
    Act.prog (.mapSet serverAddress rt)
    Act.prog .mapUnlock
    let peerID ← Act.prog .loadPeerID
    let relayClient ← Act.prog (.newClient serverAddress peerID)
    let err ← Act.prog (.connect relayClient)
    match err with
    | some e =>
      Act.prog (.trackUnlock rt)
      Act.prog .mapLock
      Act.prog (.mapDelete serverAddress)
      Act.prog .mapUnlock
      pure (.err e)
    | none =>
      Act.prog (.setOnDisconnectListener relayClient (.deleteRelayConn serverAddress))
      Act.prog (.trackUnlock rt)
      let res ← Act.prog (.openConn (some relayClient) peerKey)
      match res with
      | .ok conn => pure (.ok conn)
      | .err e => pure (.err e)
      | .nilReceiver => pure .nilReceiver

/-- Go `func (m *Manager) OpenConn(serverAddress, peerKey string) (net.Conn, error)`. -/
def OpenConn (serverAddress peerKey : String) : Prog (Ret Conn) := do
  let rc ← Act.prog .loadRelayClient
  match rc with
  | none => pure (.err errNotConnected)
  | some _ =>
    let r ← isForeignServer serverAddress
    match r with
    | .err e => pure (.err e)
    | .nilReceiver => pure .nilReceiver
    | .ok foreign =>
      if foreign = false then do
        let rc1 ← Act.prog .loadRelayClient
        Act.prog (.openConn rc1 peerKey)
      else
        openConnVia serverAddress peerKey

/-- Go `func (m *Manager) deleteRelayConn(address string)`; the log line has no
effect on the manager. -/
def deleteRelayConn (address : String) : Prog Unit := do
  Act.prog .mapLock
  Act.prog (.mapDelete address)
  Act.prog .mapUnlock

end Manager

/-- What a registered disconnect listener does when it is called.  The closure
of `openConnVia` calls `deleteRelayConn`; `Guard.OnDisconnected` is outside the
manager and touches none of its fields. -/
def Listener.call : Listener → Prog Unit
  | .deleteRelayConn serverAddress => Manager.deleteRelayConn serverAddress
  | .guardOnDisconnected _ => pure ()

/-- Modelled from the spec: the disconnect notification of a `Client`, which is
not in this file of the repository.  When the session of the client at `c`
drops, the client calls the listener registered on it, if there is one. -/
def fireDisconnect {σ : Type} (env : Env σ) (c : ClientRef) (st : State σ) : Option (State σ) :=
  match st.clients[c]? with
  | none => some st
  | some cl =>
    match cl.onDisconnect with
    | none => some st
    | some l => (run env l.call st).map fun p => p.2

/-! ## Goroutines -/

/-- Several calls of `OpenConn` in flight on one manager: the shared memory and,
for each goroutine, what is left of its call.  A goroutine whose next action is
a lock that is not available cannot take a step.  The mutex state has no queue
of waiting writers, so a reader is never held back by a writer that is only
waiting; the interleavings used below have no waiting writer. -/
structure Conc (σ : Type) where
  shared : State σ
  threads : List (Prog (Ret Conn))

/-- Goroutine `i` does its next action; `none` when it has returned already or
has to wait for a lock. -/
def Conc.step {σ : Type} (env : Env σ) (c : Conc σ) (i : Nat) : Option (Conc σ) :=
  match c.threads[i]? with
  | some (.act a k) =>
    match doAct env a c.shared with
    | none => none
    | some (r, st) => some { shared := st, threads := c.threads.set i (k r) }
  | _ => none

/-- An interleaving: the goroutines take one action each in the listed order. -/
def Conc.runSchedule {σ : Type} (env : Env σ) : List Nat → Conc σ → Option (Conc σ)
  | [], c => some c
  | i :: rest, c =>
    match c.step env i with
    | none => none
    | some c1 => Conc.runSchedule env rest c1

/-- What each goroutine returned, `none` for one that is still running. -/
def Conc.results {σ : Type} (c : Conc σ) : List (Option (Ret Conn)) :=
  c.threads.map fun p =>
    match p with
    | .ret r => some r
    | .act _ _ => none

/-! ## Observations on the log -/

/-- The action is a `Connect` call: a dial. -/
def Act.isDial : Act → Bool
  | .connect _ => true
  | _ => false

/-- The action is a stream-open, a call of `Client.OpenConn`. -/
def Act.isStreamOpen : Act → Bool
  | .openConn _ _ => true
  | _ => false

/-- The action is an operation on the registry mutex or on a track mutex. -/
def Act.isLockOp : Act → Bool
  | .mapRLock | .mapRUnlock | .mapLock | .mapUnlock => true
  | .trackLock _ | .trackUnlock _ | .trackRLock _ | .trackRUnlock _ => true
  | _ => false

/-- Number of dials in a log. -/
def dials (t : List Act) : Nat := (t.filter Act.isDial).length

/-- The lock operations of a log, in order. -/
def lockOps (t : List Act) : List Act := t.filter Act.isLockOp

/-- The state of a manager just made by `NewManager`, in a world `w`. -/
def State.init {σ : Type} (serverAddress peerID : String) (w : σ) : State σ :=
  { m := NewManager serverAddress peerID, tracks := [], clients := [], world := w, trace := [] }

/-! ## A concrete world

Relay servers answer every dial except for the address `relayDown:443`; a
connected client reports the address it dialed and opens a stream to any peer. -/

/-- The clients that are connected, each with the address it dialed. -/
abbrev World := List (ClientRef × String)

/-- The relay servers of the scenario of the specification. -/
def scenarioEnv : Env World where
  connect := fun w c addr =>
    if addr = "relayDown:443" then (some "connection refused", w) else (none, (c, addr) :: w)
  openConn := fun w c peerKey =>
    match List.lookup c w with
    | some _ => (.ok { via := c, peerKey := peerKey }, w)
    | none => (.error "relay client not connected", w)
  relayRemoteAddress := fun w c =>
    match List.lookup c w with
    | some addr => (.ok { network := "tcp", string := addr }, w)
    | none => (.error "relay client not connected", w)

/-! ## Action lists of the paths of a call -/

/-- The actions of `OpenConn` on the home path. -/
def homeActs (c : ClientRef) (peerKey : String) : List Act :=
  [.loadRelayClient, .loadRelayClient, .relayRemoteAddress (some c), .loadRelayClient,
    .openConn (some c) peerKey]

/-- The actions of `OpenConn` up to and including the dial, on the path that
finds no track: `rt` and `nc` are the new track and the new client. -/
def dialActs (c : ClientRef) (serverAddress peerID : String) (rt : TrackRef) (nc : ClientRef) :
    List Act :=
  [.loadRelayClient, .loadRelayClient, .relayRemoteAddress (some c), .mapRLock,
    .mapGet serverAddress, .mapRUnlock, .newRelayTrack, .trackLock rt, .mapLock,
    .mapSet serverAddress rt, .mapUnlock, .loadPeerID, .newClient serverAddress peerID,
    .connect nc]

/-- The actions of `openConnVia` on the path that finds the track `rt` holding
the client pointer `tc`. -/
def foundActs (serverAddress peerKey : String) (rt : TrackRef) (tc : Option ClientRef) :
    List Act :=
  [.mapRLock, .mapGet serverAddress, .trackRLock rt, .mapRUnlock, .trackLoadClient rt,
    .openConn tc peerKey, .trackRUnlock rt]

/-- What the call `c.OpenConn(peerKey)` yields and the world it leaves, for a
client pointer that may be nil. -/
def callOpenConn {σ : Type} (env : Env σ) (w : σ) (tc : Option ClientRef) (peerKey : String) :
    Ret Conn × σ :=
  match tc with
  | none => (Ret.nilReceiver, w)
  | some c => (Ret.ofExcept (env.openConn w c peerKey).1, (env.openConn w c peerKey).2)

/-! ## Sequences of calls -/

/-- One step in the life of a manager: a call of `Serve`, of `OpenConn` or of
`RelayAddress`, or the disconnect notification of the client at `c`. -/
inductive Call where
  | serve
  | openConn (serverAddress peerKey : String)
  | relayAddress
  | disconnect (c : ClientRef)
deriving DecidableEq, Repr

/-- What a step answers. -/
inductive Reply where
  | serve (err : Option GoError)
  | conn (r : Ret Conn)
  | addr (r : Ret NetAddr)
  | disconnected
deriving DecidableEq, Repr

/-- Execute one step from start to end. -/
def Call.run {σ : Type} (env : Env σ) : Call → State σ → Option (Reply × State σ)
  | .serve, st => (RelayClient.run env Manager.Serve st).map fun p => (Reply.serve p.1, p.2)
  | .openConn a k, st =>
    (RelayClient.run env (Manager.OpenConn a k) st).map fun p => (Reply.conn p.1, p.2)
  | .relayAddress, st =>
    (RelayClient.run env Manager.RelayAddress st).map fun p => (Reply.addr p.1, p.2)
  | .disconnect c, st => (fireDisconnect env c st).map fun s => (Reply.disconnected, s)

/-- Execute steps one after the other. -/
def runCalls {σ : Type} (env : Env σ) : List Call → State σ → Option (List Reply × State σ)
  | [], st => some ([], st)
  | c :: rest, st =>
    match c.run env st with
    | none => none
    | some (r, st1) =>
      match runCalls env rest st1 with
      | none => none
      | some (rs, st2) => some (r :: rs, st2)

/-! ## Properties the specification asks for, as checks -/

/-- The track invariant of the specification, as a check on a state: every track
stored in the registry whose lock nobody holds has a client, and that client
was made for the address the track is stored under. -/
def trackClientsOk {σ : Type} (st : State σ) : Bool :=
  st.m.relayClients.all fun e =>
    match st.tracks[e.2]? with
    | none => false
    | some t =>
      !t.mu.isFree ||
        (match t.relayClient with
         | none => false
         | some c => (st.clients[c]?).map Client.serverAddress == some e.1)

/-- In the list `l`, both actions occur and the first occurrence of `a` is before
the first occurrence of `b`. -/
def precedes (a b : Act) (l : List Act) : Bool :=
  l.contains a && l.contains b && decide (l.indexOf a < l.indexOf b)

/-! ## The scenario of the specification -/

/-- The manager of the scenario before `Serve`: home `relayA:443`, identity `P1`. -/
def scenarioStart : State World := State.init "relayA:443" "P1" []

/-- The actions of `Serve` in the scenario. -/
def scenarioServeActs : List Act :=
  [.loadSrvAddress, .loadPeerID, .newClient "relayA:443" "P1", .storeRelayClient 0,
    .storeReconnectGuard (Guard.mk 0),
    .setOnDisconnectListener 0 (.guardOnDisconnected (Guard.mk 0)), .connect 0]

/-- The scenario after `Serve` succeeded. -/
def scenarioServed : State World :=
  { m := { srvAddress := "relayA:443", peerID := "P1", relayClient := some 0,
           reconnectGuard := some (Guard.mk 0), relayClients := [],
           relayClientsMutex := RWMutex.free },
    tracks := [],
    clients := [Client.mk "relayA:443" "P1" (some (.guardOnDisconnected (Guard.mk 0)))],
    world := [(0, "relayA:443")],
    trace := scenarioServeActs }

/-- The scenario after `Serve` and a successful `OpenConn("relayB:443", "P3")`. -/
def scenarioForeign : State World :=
  { m := { srvAddress := "relayA:443", peerID := "P1", relayClient := some 0,
           reconnectGuard := some (Guard.mk 0), relayClients := [("relayB:443", 0)],
           relayClientsMutex := RWMutex.free },
    tracks := [NewRelayTrack],
    clients := [Client.mk "relayA:443" "P1" (some (.guardOnDisconnected (Guard.mk 0))),
                Client.mk "relayB:443" "P1" (some (.deleteRelayConn "relayB:443"))],
    world := [(1, "relayB:443"), (0, "relayA:443")],
    trace := scenarioServeActs ++ (dialActs 0 "relayB:443" "P1" 0 1 ++
      [.setOnDisconnectListener 1 (.deleteRelayConn "relayB:443"), .trackUnlock 0,
        .openConn (some 1) "P3"]) }

/-- A manager whose home relay `relayDown:443` refused the dial of `Serve`. -/
def scenarioDown : State World :=
  { m := { srvAddress := "relayDown:443", peerID := "P1", relayClient := some 0,
           reconnectGuard := some (Guard.mk 0), relayClients := [],
           relayClientsMutex := RWMutex.free },
    tracks := [],
    clients := [Client.mk "relayDown:443" "P1" (some (.guardOnDisconnected (Guard.mk 0)))],
    world := [],
    trace := [.loadSrvAddress, .loadPeerID, .newClient "relayDown:443" "P1", .storeRelayClient 0,
      .storeReconnectGuard (Guard.mk 0),
      .setOnDisconnectListener 0 (.guardOnDisconnected (Guard.mk 0)), .connect 0] }

/-- The manager with home `relayDown:443` before `Serve`. -/
def downStart : State World := State.init "relayDown:443" "P1" []

/-- A world like `scenarioEnv` whose clients, when not connected, fail
`RelayRemoteAddress` and `OpenConn` with an error worded by the client. -/
def wordingEnv : Env World where
  connect := scenarioEnv.connect
  openConn := fun w c peerKey =>
    match List.lookup c w with
    | some _ => (.ok { via := c, peerKey := peerKey }, w)
    | none => (.error "relay connection is not established", w)
  relayRemoteAddress := fun w c =>
    match List.lookup c w with
    | some addr => (.ok { network := "tcp", string := addr }, w)
    | none => (.error "relay connection is not established", w)

/-- A world like `scenarioEnv` whose primary client reports the address
`relayDown:443` whether or not its dial succeeded. -/
def eagerEnv : Env World where
  connect := scenarioEnv.connect
  openConn := scenarioEnv.openConn
  relayRemoteAddress := fun w _ => (.ok { network := "tcp", string := "relayDown:443" }, w)

/-- Two goroutines that both call `OpenConn("relayB:443", "P3")` on the served
manager of the scenario, which has no track for that address yet. -/
def raceStart : Conc World :=
  { shared := scenarioServed,
    threads := [Manager.OpenConn "relayB:443" "P3", Manager.OpenConn "relayB:443" "P3"] }

/-- An interleaving in which both goroutines look the address up before either
has stored its track: six actions of each up to the release of the registry's
read lock, then the remaining eleven of each. -/
def raceBothMiss : List Nat :=
  List.replicate 6 0 ++ List.replicate 6 1 ++ List.replicate 11 0 ++ List.replicate 11 1

/-- An interleaving in which the second goroutine finds the track the first one
has stored and is still dialing for: eleven actions of the first up to the
release of the registry's write lock, five of the second up to its lookup, the
remaining six of the first, then the remaining five of the second. -/
def raceSecondFinds : List Nat :=
  List.replicate 11 0 ++ List.replicate 5 1 ++ List.replicate 6 0 ++ List.replicate 5 1

/-! ## The registry as a map -/

theorem Registry.get_cons (a : String) (b : TrackRef) (r : Registry) (k : String) :
    Registry.get ((a, b) :: r) k = if k = a then some b else Registry.get r k := by
  unfold Registry.get
  by_cases h : k = a
  · simp [List.lookup, h]
  · have hne : (k == a) = false := by simpa using h
    simp [List.lookup, h, hne]

theorem Registry.delete_cons (a : String) (b : TrackRef) (r : Registry) (k : String) :
    Registry.delete ((a, b) :: r) k
      = if a = k then Registry.delete r k else (a, b) :: Registry.delete r k := by
  unfold Registry.delete
  by_cases h : a = k
  · simp [List.filter_cons, h]
  · simp [List.filter_cons, h]

theorem Registry.delete_of_get_none (r : Registry) (k : String)
    (h : Registry.get r k = none) : Registry.delete r k = r := by
  induction r with
  | nil => rfl
  | cons e r ih =>
    obtain ⟨a, b⟩ := e
    rw [Registry.get_cons] at h
    rw [Registry.delete_cons]
    by_cases hk : k = a
    · simp [hk] at h
    · have hk2 : ¬ a = k := fun h => hk h.symm
      simp only [hk, if_false] at h
      simp [hk2, ih h]

theorem Registry.get_delete_self (r : Registry) (k : String) :
    Registry.get (Registry.delete r k) k = none := by
  induction r with
  | nil => rfl
  | cons e r ih =>
    obtain ⟨a, b⟩ := e
    rw [Registry.delete_cons]
    by_cases hk : a = k
    · simp [hk, ih]
    · have hk2 : ¬ k = a := fun h => hk h.symm
      simp [hk, Registry.get_cons, hk2, ih]

theorem Registry.get_delete_ne (r : Registry) (k k1 : String) (hne : k1 ≠ k) :
    Registry.get (Registry.delete r k) k1 = Registry.get r k1 := by
  induction r with
  | nil => rfl
  | cons e r ih =>
    obtain ⟨a, b⟩ := e
    rw [Registry.delete_cons, Registry.get_cons]
    by_cases hk : a = k
    · have h1 : ¬ k1 = a := by rw [hk]; exact hne
      simp [hk, ih, hne]
    · simp [hk, Registry.get_cons, ih]

theorem Registry.delete_delete (r : Registry) (k : String) :
    Registry.delete (Registry.delete r k) k = Registry.delete r k := by
  unfold Registry.delete
  simp [List.filter_filter]

/-! ## Execution of one call, path by path -/

/-- Execution of `OpenConn` on the home path. -/
theorem run_OpenConn_home {σ : Type} (env : Env σ) (st : State σ) (c : ClientRef)
    (serverAddress peerKey : String) (rAddr : NetAddr)
    (hc : st.m.relayClient = some c)
    (hAddr : (env.relayRemoteAddress st.world c).1 = .ok rAddr)
    (hHome : rAddr.string = serverAddress) :
    run env (Manager.OpenConn serverAddress peerKey) st
      = some (Ret.ofExcept (env.openConn (env.relayRemoteAddress st.world c).2 c peerKey).1,
          { st with
            world := (env.openConn (env.relayRemoteAddress st.world c).2 c peerKey).2,
            trace := st.trace ++ homeActs c peerKey }) := by
  simp [Manager.OpenConn, Manager.isForeignServer, Bind.bind, Prog.bind, Act.prog, pure, run,
    doAct, exec, hc, hAddr, Ret.ofExcept, hHome, homeActs]

/-- Execution of `OpenConn` for a foreign address without a track when the dial
succeeds. -/
theorem run_OpenConn_dial_ok {σ : Type} (env : Env σ) (st : State σ) (c : ClientRef)
    (serverAddress peerKey : String) (rAddr : NetAddr)
    (hc : st.m.relayClient = some c)
    (hAddr : (env.relayRemoteAddress st.world c).1 = .ok rAddr)
    (hForeign : rAddr.string ≠ serverAddress)
    (hAbsent : st.m.relayClients.get serverAddress = none)
    (hMu : st.m.relayClientsMutex = RWMutex.free)
    (hDial : (env.connect (env.relayRemoteAddress st.world c).2 st.clients.length
      serverAddress).1 = none) :
    run env (Manager.OpenConn serverAddress peerKey) st
      = some (Ret.ofExcept (env.openConn
            (env.connect (env.relayRemoteAddress st.world c).2 st.clients.length serverAddress).2
            st.clients.length peerKey).1,
          { m := { st.m with
              relayClients := (serverAddress, st.tracks.length) :: st.m.relayClients },
            tracks := st.tracks ++ [NewRelayTrack],
            clients := st.clients ++
              [Client.mk serverAddress st.m.peerID (some (.deleteRelayConn serverAddress))],
            world := (env.openConn
              (env.connect (env.relayRemoteAddress st.world c).2 st.clients.length serverAddress).2
              st.clients.length peerKey).2,
            trace := st.trace ++ (dialActs c serverAddress st.m.peerID st.tracks.length
                st.clients.length ++
              [.setOnDisconnectListener st.clients.length (.deleteRelayConn serverAddress),
                .trackUnlock st.tracks.length, .openConn (some st.clients.length) peerKey]) }) := by
  have hdel := Registry.delete_of_get_none _ _ hAbsent
  cases hOpen : (env.openConn
            (env.connect (env.relayRemoteAddress st.world c).2 st.clients.length serverAddress).2
            st.clients.length peerKey).1 <;>
  simp [Manager.OpenConn, Manager.isForeignServer, Manager.openConnVia, Bind.bind, Prog.bind,
        Act.prog, pure, run, doAct, exec, hc, hAddr, Ret.ofExcept, hForeign, hAbsent, hMu,
        RWMutex.free, RWMutex.RLock, RWMutex.RUnlock, RWMutex.Lock, RWMutex.Unlock,
        State.withMapMutex, State.withMap, State.onTrackMutex, NewRelayTrack, hDial, hOpen,
        dialActs, Registry.set, hdel]

/-- Execution of `OpenConn` for a foreign address without a track when the dial
fails with `e`. -/
theorem run_OpenConn_dial_fail {σ : Type} (env : Env σ) (st : State σ) (c : ClientRef)
    (serverAddress peerKey : String) (rAddr : NetAddr) (e : GoError)
    (hc : st.m.relayClient = some c)
    (hAddr : (env.relayRemoteAddress st.world c).1 = .ok rAddr)
    (hForeign : rAddr.string ≠ serverAddress)
    (hAbsent : st.m.relayClients.get serverAddress = none)
    (hMu : st.m.relayClientsMutex = RWMutex.free)
    (hDial : (env.connect (env.relayRemoteAddress st.world c).2 st.clients.length
      serverAddress).1 = some e) :
    run env (Manager.OpenConn serverAddress peerKey) st
      = some (Ret.err e,
          { m := st.m,
            tracks := st.tracks ++ [NewRelayTrack],
            clients := st.clients ++ [Client.mk serverAddress st.m.peerID none],
            world :=
              (env.connect (env.relayRemoteAddress st.world c).2 st.clients.length serverAddress).2,
            trace := st.trace ++ (dialActs c serverAddress st.m.peerID st.tracks.length
                st.clients.length ++
              [.trackUnlock st.tracks.length, .mapLock, .mapDelete serverAddress, .mapUnlock]) }) := by
  have hdel := Registry.delete_of_get_none _ _ hAbsent
  have hself := Registry.get_delete_self st.m.relayClients serverAddress
  simp [Manager.OpenConn, Manager.isForeignServer, Manager.openConnVia, Bind.bind, Prog.bind,
        Act.prog, pure, run, doAct, exec, hc, hAddr, Ret.ofExcept, hForeign, hAbsent, hMu,
        RWMutex.free, RWMutex.RLock, RWMutex.RUnlock, RWMutex.Lock, RWMutex.Unlock,
        State.withMapMutex, State.withMap, State.onTrackMutex, NewRelayTrack, hDial,
        dialActs, Registry.set, hdel, Registry.delete_cons]
  obtain ⟨m, _, _, _, _⟩ := st
  obtain ⟨_, _, _, _, _, _⟩ := m
  simp_all [RWMutex.free]

/-- Writing back the element that is already at a position changes nothing. -/
theorem set_same {α : Type} (l : List α) (i : Nat) (a : α) (h : l[i]? = some a) :
    l.set i a = l := by
  induction l generalizing i with
  | nil => rfl
  | cons x xs ih =>
    cases i with
    | zero => simp at h; simp [h]
    | succ n => simp at h; simp [ih n h]

/-- Execution of `openConnVia` when the registry has a track for the address and
neither the registry nor the track is write-locked: the call goes through the
client pointer stored in the track. -/
theorem run_openConnVia_found {σ : Type} (env : Env σ) (st : State σ)
    (serverAddress peerKey : String) (rt : TrackRef) (t : RelayTrack)
    (hFound : st.m.relayClients.get serverAddress = some rt)
    (hTrack : st.tracks[rt]? = some t)
    (hMu : st.m.relayClientsMutex.writer = false)
    (hTmu : t.mu.writer = false) :
    run env (Manager.openConnVia serverAddress peerKey) st
      = some ((callOpenConn env st.world t.relayClient peerKey).1,
          { st with world := (callOpenConn env st.world t.relayClient peerKey).2,
                    trace := st.trace ++ foundActs serverAddress peerKey rt t.relayClient }) := by
  have hlt : rt < st.tracks.length := by
    rcases Nat.lt_or_ge rt st.tracks.length with h | h
    · exact h
    · rw [List.getElem?_eq_none h] at hTrack; cases hTrack
  obtain ⟨m, tracks, clients, world, trace⟩ := st
  obtain ⟨srv, pid, rc, g, reg, mu⟩ := m
  obtain ⟨tmu, tcl⟩ := t
  obtain ⟨mw, mr⟩ := mu
  obtain ⟨tw, tr⟩ := tmu
  simp only at hFound hTrack hMu hTmu hlt
  subst hMu hTmu
  have hs := set_same _ _ _ hTrack
  cases tcl <;>
  simp [Manager.openConnVia, Bind.bind, Prog.bind, Act.prog, pure, run, doAct, exec,
      RWMutex.RLock, RWMutex.RUnlock, State.withMapMutex, State.onTrackMutex, hFound, hTrack,
      foundActs, hlt, callOpenConn, hs]

/-- Execution of `deleteRelayConn` when nobody holds the registry mutex. -/
theorem run_deleteRelayConn {σ : Type} (env : Env σ) (st : State σ) (address : String)
    (hMu : st.m.relayClientsMutex = RWMutex.free) :
    run env (Manager.deleteRelayConn address) st
      = some ((), { st with m := { st.m with relayClients := st.m.relayClients.delete address },
                            trace := st.trace ++ [.mapLock, .mapDelete address, .mapUnlock] }) := by
  obtain ⟨m, tracks, clients, world, trace⟩ := st
  obtain ⟨srv, pid, rc, g, reg, mu⟩ := m
  simp only at hMu
  subst hMu
  simp [Manager.deleteRelayConn, Bind.bind, Prog.bind, Act.prog, run, doAct, exec,
    RWMutex.free, RWMutex.Lock, RWMutex.Unlock, State.withMapMutex, State.withMap]

/-- Execution of `OpenConn` when the manager has no primary client. -/
theorem run_OpenConn_nil {σ : Type} (env : Env σ) (st : State σ) (serverAddress peerKey : String)
    (hc : st.m.relayClient = none) :
    run env (Manager.OpenConn serverAddress peerKey) st
      = some (Ret.err errNotConnected, { st with trace := st.trace ++ [.loadRelayClient] }) := by
  simp [Manager.OpenConn, Bind.bind, Prog.bind, Act.prog, pure, run, doAct, exec, hc]

/-- Execution of `RelayAddress` when the manager has no primary client. -/
theorem run_RelayAddress_nil {σ : Type} (env : Env σ) (st : State σ)
    (hc : st.m.relayClient = none) :
    run env Manager.RelayAddress st
      = some (Ret.err errNotConnected, { st with trace := st.trace ++ [.loadRelayClient] }) := by
  simp [Manager.RelayAddress, Bind.bind, Prog.bind, Act.prog, pure, run, doAct, exec, hc]

/-- Execution of `RelayAddress` when the manager has a primary client. -/
theorem run_RelayAddress_some {σ : Type} (env : Env σ) (st : State σ) (c : ClientRef)
    (hc : st.m.relayClient = some c) :
    run env Manager.RelayAddress st
      = some (Ret.ofExcept (env.relayRemoteAddress st.world c).1,
          { st with world := (env.relayRemoteAddress st.world c).2,
                    trace := st.trace ++
                      [.loadRelayClient, .loadRelayClient, .relayRemoteAddress (some c)] }) := by
  simp [Manager.RelayAddress, Bind.bind, Prog.bind, Act.prog, pure, run, doAct, exec, hc]

/-- Execution of `OpenConn` when the primary client cannot report its address. -/
theorem run_OpenConn_unreachable {σ : Type} (env : Env σ) (st : State σ) (c : ClientRef)
    (serverAddress peerKey : String) (e : GoError)
    (hc : st.m.relayClient = some c)
    (hAddr : (env.relayRemoteAddress st.world c).1 = .error e) :
    run env (Manager.OpenConn serverAddress peerKey) st
      = some (Ret.err errNotConnected,
          { st with world := (env.relayRemoteAddress st.world c).2,
                    trace := st.trace ++
                      [.loadRelayClient, .loadRelayClient, .relayRemoteAddress (some c)] }) := by
  simp [Manager.OpenConn, Manager.isForeignServer, Bind.bind, Prog.bind, Act.prog, pure, run,
    doAct, exec, hc, hAddr, Ret.ofExcept]

/-- Execution of `Serve`: the primary client is stored in the manager before the
dial, whatever the dial answers. -/
theorem run_Serve {σ : Type} (env : Env σ) (st : State σ) :
    run env Manager.Serve st
      = some ((env.connect st.world st.clients.length st.m.srvAddress).1,
          { m := { st.m with relayClient := some st.clients.length,
                             reconnectGuard := some (Guard.mk st.clients.length) },
            tracks := st.tracks,
            clients := st.clients ++ [Client.mk st.m.srvAddress st.m.peerID
              (some (.guardOnDisconnected (Guard.mk st.clients.length)))],
            world := (env.connect st.world st.clients.length st.m.srvAddress).2,
            trace := st.trace ++ [.loadSrvAddress, .loadPeerID,
              .newClient st.m.srvAddress st.m.peerID, .storeRelayClient st.clients.length,
              .storeReconnectGuard (Guard.mk st.clients.length),
              .setOnDisconnectListener st.clients.length
                (.guardOnDisconnected (Guard.mk st.clients.length)),
              .connect st.clients.length] }) := by
  cases h : (env.connect st.world st.clients.length st.m.srvAddress).1 <;>
  simp [Manager.Serve, Bind.bind, Prog.bind, Act.prog, pure, run, doAct, exec, h]

/-- After any successful foreign dial the track stored for the address has a nil
client, in every environment: a later `openConnVia` for that address finds the
track and makes its call through the nil pointer, without a dial. -/
theorem openConnVia_after_dial_calls_nil {σ : Type} (env : Env σ) (st st1 : State σ)
    (c : ClientRef) (serverAddress peerKey peerKey2 : String) (rAddr : NetAddr) (r1 : Ret Conn)
    (hc : st.m.relayClient = some c)
    (hAddr : (env.relayRemoteAddress st.world c).1 = .ok rAddr)
    (hForeign : rAddr.string ≠ serverAddress)
    (hAbsent : st.m.relayClients.get serverAddress = none)
    (hMu : st.m.relayClientsMutex = RWMutex.free)
    (hDial : (env.connect (env.relayRemoteAddress st.world c).2 st.clients.length
      serverAddress).1 = none)
    (hRun : run env (Manager.OpenConn serverAddress peerKey) st = some (r1, st1)) :
    st1.tracks[st.tracks.length]? = some (RelayTrack.mk RWMutex.free none)
    ∧ run env (Manager.openConnVia serverAddress peerKey2) st1
      = some (Ret.nilReceiver,
          { st1 with trace := st1.trace ++
              foundActs serverAddress peerKey2 st.tracks.length none }) := by
  have h1 := run_OpenConn_dial_ok env st c serverAddress peerKey rAddr hc hAddr hForeign hAbsent
    hMu hDial
  rw [h1] at hRun
  simp only [Option.some.injEq, Prod.mk.injEq] at hRun
  obtain ⟨-, rfl⟩ := hRun
  have hT : (st.tracks ++ [NewRelayTrack])[st.tracks.length]? = some NewRelayTrack := by simp
  refine ⟨hT, ?_⟩
  have h2 := run_openConnVia_found env
    { m := { st.m with relayClients := (serverAddress, st.tracks.length) :: st.m.relayClients },
      tracks := st.tracks ++ [NewRelayTrack],
      clients := st.clients ++
        [Client.mk serverAddress st.m.peerID (some (.deleteRelayConn serverAddress))],
      world := (env.openConn
        (env.connect (env.relayRemoteAddress st.world c).2 st.clients.length serverAddress).2
        st.clients.length peerKey).2,
      trace := st.trace ++ (dialActs c serverAddress st.m.peerID st.tracks.length
          st.clients.length ++
        [.setOnDisconnectListener st.clients.length (.deleteRelayConn serverAddress),
          .trackUnlock st.tracks.length, .openConn (some st.clients.length) peerKey]) }
    serverAddress peerKey2 st.tracks.length NewRelayTrack
    (by simp [Registry.get_cons]) hT (by simp [hMu, RWMutex.free]) rfl
  exact h2

/-! ## The scenario states are the states the code reaches -/

/-- In the scenario `Serve` succeeds and leaves `scenarioServed`. -/
theorem scenarioServed_reached :
    run scenarioEnv Manager.Serve scenarioStart = some (none, scenarioServed) := rfl

/-- In the scenario the first `OpenConn` to `relayB:443` returns a stream over
the new client 1 and leaves `scenarioForeign`. -/
theorem scenarioForeign_reached :
    run scenarioEnv (Manager.OpenConn "relayB:443" "P3") scenarioServed
      = some (Ret.ok (Conn.mk 1 "P3"), scenarioForeign) := rfl

/-- A `Serve` whose dial is refused returns the dial error and leaves
`scenarioDown`. -/
theorem scenarioDown_reached :
    run scenarioEnv Manager.Serve downStart
      = some (some "connection refused", scenarioDown) := rfl

/-! ## Claims -/

/-- Claim C1, evaluated on the code.  In the scenario, after `Serve` and a first
`OpenConn("relayB:443", "P3")` that dialed successfully, a further
`OpenConn("relayB:443", "P3")` performs no second dial (two dials in all, the
primary one and the first foreign one), but it does not return what stream-open
on the established client 1 returns (a stream): it makes the call through the
nil client pointer of the track. -/
theorem C1_second_open_calls_nil_client :
    (runCalls scenarioEnv
        [.serve, .openConn "relayB:443" "P3", .openConn "relayB:443" "P3"] scenarioStart).map
        (fun p => (p.1, dials p.2.trace))
      = some ([.serve none, .conn (.ok (Conn.mk 1 "P3")), .conn .nilReceiver], 2)
    ∧ (runCalls scenarioEnv [.serve, .openConn "relayB:443" "P3"] scenarioStart).map
        (fun p => Ret.ofExcept (scenarioEnv.openConn p.2.world 1 "P3").1)
      = some (.ok (Conn.mk 1 "P3")) := by
  constructor <;> rfl

/-- Claim C2, evaluated on the code.  In the state reached by `Serve` followed by
a successful `OpenConn("relayB:443", "P3")`, the registry holds one track, its
lock is held by nobody, and its client is nil: the track invariant fails. -/
theorem C2_track_client_never_written :
    (runCalls scenarioEnv [.serve, .openConn "relayB:443" "P3"] scenarioStart).map
        (fun p => (p.2.m.relayClients, p.2.tracks, trackClientsOk p.2))
      = some ([("relayB:443", 0)], [RelayTrack.mk RWMutex.free none], false) := by
  rfl

/-- Claim C3.  When the address asked for is the string form of the address the
primary client reports at the time of the call, `Manager.OpenConn` completes,
returns exactly what the primary client's `OpenConn(peerKey)` returns, performs
no dial, and leaves the manager (its registry included) and the tracks as they
were. -/
theorem C3_home_delegates_to_primary {σ : Type} (env : Env σ) (st : State σ) (c : ClientRef)
    (serverAddress peerKey : String) (rAddr : NetAddr)
    (hc : st.m.relayClient = some c)
    (hAddr : (env.relayRemoteAddress st.world c).1 = .ok rAddr)
    (hHome : rAddr.string = serverAddress) :
    ∃ st1 acts, run env (Manager.OpenConn serverAddress peerKey) st
        = some (Ret.ofExcept (env.openConn (env.relayRemoteAddress st.world c).2 c peerKey).1, st1)
      ∧ st1.trace = st.trace ++ acts
      ∧ acts.filter Act.isDial = []
      ∧ acts.filter Act.isStreamOpen = [Act.openConn (some c) peerKey]
      ∧ st1.m.relayClients = st.m.relayClients
      ∧ st1.m = st.m ∧ st1.tracks = st.tracks :=
  ⟨_, homeActs c peerKey, run_OpenConn_home env st c serverAddress peerKey rAddr hc hAddr hHome,
    rfl, rfl, rfl, rfl, rfl, rfl⟩

/-- Witness of C3: `OpenConn("relayA:443", "P2")` on the served manager of the
scenario. -/
theorem C3_home_delegates_to_primary_witness :
    (scenarioServed.m.relayClient = some 0
      ∧ (scenarioEnv.relayRemoteAddress scenarioServed.world 0).1 = .ok (NetAddr.mk "tcp" "relayA:443"))
    ∧ ∃ st1 acts, run scenarioEnv (Manager.OpenConn "relayA:443" "P2") scenarioServed
        = some (Ret.ofExcept (scenarioEnv.openConn
            (scenarioEnv.relayRemoteAddress scenarioServed.world 0).2 0 "P2").1, st1)
      ∧ st1.trace = scenarioServed.trace ++ acts
      ∧ acts.filter Act.isDial = []
      ∧ acts.filter Act.isStreamOpen = [Act.openConn (some 0) "P2"]
      ∧ st1.m.relayClients = scenarioServed.m.relayClients
      ∧ st1.m = scenarioServed.m ∧ st1.tracks = scenarioServed.tracks :=
  ⟨⟨rfl, rfl⟩, C3_home_delegates_to_primary scenarioEnv scenarioServed 0 "relayA:443" "P2"
    (NetAddr.mk "tcp" "relayA:443") rfl rfl rfl⟩

/-- Claim C4.  For a foreign address without a registry entry whose dial succeeds,
`Manager.OpenConn` completes, dials exactly once, namely the client it has just
made for that address, returns exactly what stream-open on that new client
returns (the stream, or the error unchanged), and in both cases the registry
afterwards is the registry before plus one track under the address. -/
theorem C4_foreign_dial_success {σ : Type} (env : Env σ) (st : State σ) (c : ClientRef)
    (serverAddress peerKey : String) (rAddr : NetAddr)
    (hc : st.m.relayClient = some c)
    (hAddr : (env.relayRemoteAddress st.world c).1 = .ok rAddr)
    (hForeign : rAddr.string ≠ serverAddress)
    (hAbsent : st.m.relayClients.get serverAddress = none)
    (hMu : st.m.relayClientsMutex = RWMutex.free)
    (hDial : (env.connect (env.relayRemoteAddress st.world c).2 st.clients.length
      serverAddress).1 = none) :
    ∃ st1 acts, run env (Manager.OpenConn serverAddress peerKey) st
        = some (Ret.ofExcept (env.openConn
            (env.connect (env.relayRemoteAddress st.world c).2 st.clients.length serverAddress).2
            st.clients.length peerKey).1, st1)
      ∧ st1.trace = st.trace ++ acts
      ∧ acts.filter Act.isDial = [Act.connect st.clients.length]
      ∧ (st1.clients[st.clients.length]?).map Client.serverAddress = some serverAddress
      ∧ acts.filter Act.isStreamOpen = [Act.openConn (some st.clients.length) peerKey]
      ∧ st1.m.relayClients = (serverAddress, st.tracks.length) :: st.m.relayClients
      ∧ st1.m.relayClients.get serverAddress = some st.tracks.length
      ∧ (∀ k, k ≠ serverAddress → st1.m.relayClients.get k = st.m.relayClients.get k) := by
  refine ⟨_, _, run_OpenConn_dial_ok env st c serverAddress peerKey rAddr hc hAddr hForeign hAbsent
    hMu hDial, rfl, rfl, ?_, rfl, rfl, ?_, ?_⟩
  · simp
  · simp [Registry.get_cons]
  · intro k hk
    simp [Registry.get_cons, hk]

/-- Witness of C4: `OpenConn("relayB:443", "P3")` on the served manager of the
scenario. -/
theorem C4_foreign_dial_success_witness :
    (scenarioServed.m.relayClient = some 0
      ∧ (scenarioEnv.relayRemoteAddress scenarioServed.world 0).1 = .ok (NetAddr.mk "tcp" "relayA:443")
      ∧ "relayA:443" ≠ "relayB:443"
      ∧ scenarioServed.m.relayClients.get "relayB:443" = none
      ∧ scenarioServed.m.relayClientsMutex = RWMutex.free
      ∧ (scenarioEnv.connect (scenarioEnv.relayRemoteAddress scenarioServed.world 0).2 1
          "relayB:443").1 = none)
    ∧ ∃ st1 acts, run scenarioEnv (Manager.OpenConn "relayB:443" "P3") scenarioServed
        = some (Ret.ofExcept (scenarioEnv.openConn
            (scenarioEnv.connect (scenarioEnv.relayRemoteAddress scenarioServed.world 0).2 1
              "relayB:443").2 1 "P3").1, st1)
      ∧ st1.trace = scenarioServed.trace ++ acts
      ∧ acts.filter Act.isDial = [Act.connect 1]
      ∧ (st1.clients[1]?).map Client.serverAddress = some "relayB:443"
      ∧ acts.filter Act.isStreamOpen = [Act.openConn (some 1) "P3"]
      ∧ st1.m.relayClients = ("relayB:443", 0) :: scenarioServed.m.relayClients
      ∧ st1.m.relayClients.get "relayB:443" = some 0
      ∧ (∀ k, k ≠ "relayB:443" → st1.m.relayClients.get k = scenarioServed.m.relayClients.get k) :=
  ⟨⟨rfl, rfl, by decide, rfl, rfl, rfl⟩,
    C4_foreign_dial_success scenarioEnv scenarioServed 0 "relayB:443" "P3"
      (NetAddr.mk "tcp" "relayA:443") rfl rfl (by decide) rfl rfl rfl⟩

/-- Claim C5.  For a foreign address without a registry entry whose dial fails
with `e`, `Manager.OpenConn` completes and returns `e` itself, opens no stream,
and leaves the manager as it was: the registry after the call is the registry
before the call, the track stored for the dial having been deleted again. -/
theorem C5_foreign_dial_failure {σ : Type} (env : Env σ) (st : State σ) (c : ClientRef)
    (serverAddress peerKey : String) (rAddr : NetAddr) (e : GoError)
    (hc : st.m.relayClient = some c)
    (hAddr : (env.relayRemoteAddress st.world c).1 = .ok rAddr)
    (hForeign : rAddr.string ≠ serverAddress)
    (hAbsent : st.m.relayClients.get serverAddress = none)
    (hMu : st.m.relayClientsMutex = RWMutex.free)
    (hDial : (env.connect (env.relayRemoteAddress st.world c).2 st.clients.length
      serverAddress).1 = some e) :
    ∃ st1 acts, run env (Manager.OpenConn serverAddress peerKey) st = some (Ret.err e, st1)
      ∧ st1.trace = st.trace ++ acts
      ∧ acts.filter Act.isStreamOpen = []
      ∧ acts.filter Act.isDial = [Act.connect st.clients.length]
      ∧ Act.mapSet serverAddress st.tracks.length ∈ acts
      ∧ Act.mapDelete serverAddress ∈ acts
      ∧ st1.m.relayClients = st.m.relayClients
      ∧ st1.m = st.m := by
  refine ⟨_, _, run_OpenConn_dial_fail env st c serverAddress peerKey rAddr e hc hAddr hForeign
    hAbsent hMu hDial, rfl, rfl, rfl, ?_, ?_, rfl, rfl⟩
  · simp [dialActs]
  · simp [dialActs]

/-- Witness of C5: `OpenConn("relayDown:443", "P3")` on the served manager of the
scenario; the dial is refused. -/
theorem C5_foreign_dial_failure_witness :
    (scenarioServed.m.relayClient = some 0
      ∧ (scenarioEnv.relayRemoteAddress scenarioServed.world 0).1 = .ok (NetAddr.mk "tcp" "relayA:443")
      ∧ "relayA:443" ≠ "relayDown:443"
      ∧ scenarioServed.m.relayClients.get "relayDown:443" = none
      ∧ scenarioServed.m.relayClientsMutex = RWMutex.free
      ∧ (scenarioEnv.connect (scenarioEnv.relayRemoteAddress scenarioServed.world 0).2 1
          "relayDown:443").1 = some "connection refused")
    ∧ ∃ st1 acts, run scenarioEnv (Manager.OpenConn "relayDown:443" "P3") scenarioServed
        = some (Ret.err "connection refused", st1)
      ∧ st1.trace = scenarioServed.trace ++ acts
      ∧ acts.filter Act.isStreamOpen = []
      ∧ acts.filter Act.isDial = [Act.connect 1]
      ∧ Act.mapSet "relayDown:443" 0 ∈ acts
      ∧ Act.mapDelete "relayDown:443" ∈ acts
      ∧ st1.m.relayClients = scenarioServed.m.relayClients
      ∧ st1.m = scenarioServed.m :=
  ⟨⟨rfl, rfl, by decide, rfl, rfl, rfl⟩,
    C5_foreign_dial_failure scenarioEnv scenarioServed 0 "relayDown:443" "P3"
      (NetAddr.mk "tcp" "relayA:443") "connection refused" rfl rfl (by decide) rfl rfl rfl⟩

/-- Claim C6.  Let a first `OpenConn` to a foreign address without a registry
entry dial successfully and leave the state `st1`.  Then the registry has an
entry for the address, one entry more than before, and the new client carries
the listener that deletes it.  Firing that listener completes and leaves a
state whose registry has no entry for the address and equals the registry
before the first call.  A further `OpenConn` to the address, the primary still
reporting another address, completes, looks the address up, makes a new client
for the address and dials it, once, and makes no call through the
disconnected client; when that dial succeeds the result is what stream-open on
the new client returns. -/
theorem C6_disconnect_then_fresh_dial {σ : Type} (env : Env σ) (st st1 : State σ)
    (c : ClientRef) (serverAddress peerKey : String) (rAddr rAddr2 : NetAddr) (r1 : Ret Conn)
    (hc : st.m.relayClient = some c)
    (hAddr : (env.relayRemoteAddress st.world c).1 = .ok rAddr)
    (hForeign : rAddr.string ≠ serverAddress)
    (hAbsent : st.m.relayClients.get serverAddress = none)
    (hMu : st.m.relayClientsMutex = RWMutex.free)
    (hDial : (env.connect (env.relayRemoteAddress st.world c).2 st.clients.length
      serverAddress).1 = none)
    (hRun : run env (Manager.OpenConn serverAddress peerKey) st = some (r1, st1))
    (hAddr2 : (env.relayRemoteAddress st1.world c).1 = .ok rAddr2)
    (hForeign2 : rAddr2.string ≠ serverAddress) :
    st1.m.relayClients.get serverAddress = some st.tracks.length
    ∧ st1.m.relayClients.length = st.m.relayClients.length + 1
    ∧ st1.clients.length = st.clients.length + 1
    ∧ (st1.clients[st.clients.length]?).bind Client.onDisconnect
        = some (Listener.deleteRelayConn serverAddress)
    ∧ ∃ st2 r3 st3 acts,
        fireDisconnect env st.clients.length st1 = some st2
      ∧ st2.m.relayClients.get serverAddress = none
      ∧ st2.m.relayClients = st.m.relayClients
      ∧ run env (Manager.OpenConn serverAddress peerKey) st2 = some (r3, st3)
      ∧ st3.trace = st2.trace ++ acts
      ∧ Act.mapGet serverAddress ∈ acts
      ∧ Act.newClient serverAddress st.m.peerID ∈ acts
      ∧ acts.filter Act.isDial = [Act.connect st1.clients.length]
      ∧ Act.openConn (some st.clients.length) peerKey ∉ acts
      ∧ ((env.connect (env.relayRemoteAddress st1.world c).2 st1.clients.length
            serverAddress).1 = none →
          r3 = Ret.ofExcept (env.openConn
            (env.connect (env.relayRemoteAddress st1.world c).2 st1.clients.length
              serverAddress).2 st1.clients.length peerKey).1) := by
  have h1 := run_OpenConn_dial_ok env st c serverAddress peerKey rAddr hc hAddr hForeign hAbsent
    hMu hDial
  rw [h1] at hRun
  simp only [Option.some.injEq, Prod.mk.injEq] at hRun
  obtain ⟨-, rfl⟩ := hRun
  have hdel := Registry.delete_of_get_none _ _ hAbsent
  refine ⟨by simp [Registry.get_cons], by simp, by simp, by simp, ?_⟩
  have hfire := run_deleteRelayConn env
    { m := { st.m with relayClients := (serverAddress, st.tracks.length) :: st.m.relayClients },
      tracks := st.tracks ++ [NewRelayTrack],
      clients := st.clients ++
        [Client.mk serverAddress st.m.peerID (some (.deleteRelayConn serverAddress))],
      world := (env.openConn
        (env.connect (env.relayRemoteAddress st.world c).2 st.clients.length serverAddress).2
        st.clients.length peerKey).2,
      trace := st.trace ++ (dialActs c serverAddress st.m.peerID st.tracks.length
          st.clients.length ++
        [.setOnDisconnectListener st.clients.length (.deleteRelayConn serverAddress),
          .trackUnlock st.tracks.length, .openConn (some st.clients.length) peerKey]) }
    serverAddress hMu
  simp only [Registry.delete_cons, if_true, hdel] at hfire
  have hfire2 : fireDisconnect env st.clients.length
      { m := { st.m with relayClients := (serverAddress, st.tracks.length) :: st.m.relayClients },
        tracks := st.tracks ++ [NewRelayTrack],
        clients := st.clients ++
          [Client.mk serverAddress st.m.peerID (some (.deleteRelayConn serverAddress))],
        world := (env.openConn
          (env.connect (env.relayRemoteAddress st.world c).2 st.clients.length serverAddress).2
          st.clients.length peerKey).2,
        trace := st.trace ++ (dialActs c serverAddress st.m.peerID st.tracks.length
            st.clients.length ++
          [.setOnDisconnectListener st.clients.length (.deleteRelayConn serverAddress),
            .trackUnlock st.tracks.length, .openConn (some st.clients.length) peerKey]) }
      = some
      { m := st.m,
        tracks := st.tracks ++ [NewRelayTrack],
        clients := st.clients ++
          [Client.mk serverAddress st.m.peerID (some (.deleteRelayConn serverAddress))],
        world := (env.openConn
          (env.connect (env.relayRemoteAddress st.world c).2 st.clients.length serverAddress).2
          st.clients.length peerKey).2,
        trace := st.trace ++ (dialActs c serverAddress st.m.peerID st.tracks.length
            st.clients.length ++
          [.setOnDisconnectListener st.clients.length (.deleteRelayConn serverAddress),
            .trackUnlock st.tracks.length, .openConn (some st.clients.length) peerKey]) ++
          [.mapLock, .mapDelete serverAddress, .mapUnlock] } := by
    simp [fireDisconnect, Listener.call, hfire]
  have hne : st.clients.length ≠ st.clients.length + 1 := by omega
  cases h2 : (env.connect (env.relayRemoteAddress (env.openConn
        (env.connect (env.relayRemoteAddress st.world c).2 st.clients.length serverAddress).2
        st.clients.length peerKey).2 c).2
        (st.clients ++
          [Client.mk serverAddress st.m.peerID (some (.deleteRelayConn serverAddress))]).length
        serverAddress).1 with
  | none =>
    refine ⟨_, _, _, _, hfire2, hAbsent, rfl,
      run_OpenConn_dial_ok env _ c serverAddress peerKey rAddr2 hc hAddr2 hForeign2 hAbsent hMu
        h2, rfl, ?_, ?_, rfl, ?_, ?_⟩
    · simp [dialActs]
    · simp [dialActs]
    · simp [dialActs, hne]
    · intro _
      rfl
  | some e2 =>
    refine ⟨_, _, _, _, hfire2, hAbsent, rfl,
      run_OpenConn_dial_fail env _ c serverAddress peerKey rAddr2 e2 hc hAddr2 hForeign2 hAbsent hMu
        h2, rfl, ?_, ?_, rfl, ?_, ?_⟩
    · simp [dialActs]
    · simp [dialActs]
    · simp [dialActs]
    · intro h
      cases h


/-- Witness of C6: the scenario.  The first `OpenConn("relayB:443", "P3")` leaves
`scenarioForeign`, with one registry entry. -/
theorem C6_disconnect_then_fresh_dial_witness :
    (scenarioServed.m.relayClient = some 0
      ∧ (scenarioEnv.relayRemoteAddress scenarioServed.world 0).1 = .ok (NetAddr.mk "tcp" "relayA:443")
      ∧ "relayA:443" ≠ "relayB:443"
      ∧ scenarioServed.m.relayClients.get "relayB:443" = none
      ∧ scenarioServed.m.relayClientsMutex = RWMutex.free
      ∧ (scenarioEnv.connect (scenarioEnv.relayRemoteAddress scenarioServed.world 0).2 1
          "relayB:443").1 = none
      ∧ run scenarioEnv (Manager.OpenConn "relayB:443" "P3") scenarioServed
          = some (Ret.ok (Conn.mk 1 "P3"), scenarioForeign)
      ∧ (scenarioEnv.relayRemoteAddress scenarioForeign.world 0).1
          = .ok (NetAddr.mk "tcp" "relayA:443"))
    ∧ scenarioForeign.m.relayClients.get "relayB:443" = some 0
    ∧ scenarioForeign.m.relayClients.length = 0 + 1
    ∧ scenarioForeign.clients.length = 1 + 1
    ∧ (scenarioForeign.clients[1]?).bind Client.onDisconnect
        = some (Listener.deleteRelayConn "relayB:443")
    ∧ ∃ st2 r3 st3 acts,
        fireDisconnect scenarioEnv 1 scenarioForeign = some st2
      ∧ st2.m.relayClients.get "relayB:443" = none
      ∧ st2.m.relayClients = []
      ∧ run scenarioEnv (Manager.OpenConn "relayB:443" "P3") st2 = some (r3, st3)
      ∧ st3.trace = st2.trace ++ acts
      ∧ Act.mapGet "relayB:443" ∈ acts
      ∧ Act.newClient "relayB:443" "P1" ∈ acts
      ∧ acts.filter Act.isDial = [Act.connect 2]
      ∧ Act.openConn (some 1) "P3" ∉ acts
      ∧ ((scenarioEnv.connect (scenarioEnv.relayRemoteAddress scenarioForeign.world 0).2 2
            "relayB:443").1 = none →
          r3 = Ret.ofExcept (scenarioEnv.openConn
            (scenarioEnv.connect (scenarioEnv.relayRemoteAddress scenarioForeign.world 0).2 2
              "relayB:443").2 2 "P3").1) :=
  ⟨⟨rfl, rfl, by decide, rfl, rfl, rfl, rfl, rfl⟩,
    C6_disconnect_then_fresh_dial scenarioEnv scenarioServed scenarioForeign 0 "relayB:443" "P3"
      (NetAddr.mk "tcp" "relayA:443") (NetAddr.mk "tcp" "relayA:443") (Ret.ok (Conn.mk 1 "P3"))
      rfl rfl (by decide) rfl rfl rfl rfl rfl (by decide)⟩

/-- Counterexample to C7 as stated.  After a `Serve` that returned its connect
error the manager already holds the primary client, and what happens next is
what that client answers to `RelayRemoteAddress`.  With a client that fails in
its own words, `RelayAddress` returns that error, not the not-connected error
of the manager.  With a client that reports its address although the dial
failed, `RelayAddress` returns an address and `OpenConn` to a foreign address
dials it and returns a stream. -/
theorem C7_counterexample :
    (runCalls wordingEnv [.serve, .relayAddress] downStart).map (fun p => p.1)
      = some [.serve (some "connection refused"),
          .addr (.err "relay connection is not established")]
    ∧ (Ret.err "relay connection is not established" : Ret NetAddr) ≠ Ret.err errNotConnected
    ∧ (runCalls eagerEnv [.serve, .relayAddress, .openConn "relayB:443" "P3"] downStart).map
        (fun p => (p.1, p.2.trace.filter Act.isDial, p.2.m.relayClients))
      = some ([.serve (some "connection refused"),
            .addr (.ok (NetAddr.mk "tcp" "relayDown:443")),
            .conn (.ok (Conn.mk 1 "P3"))],
          [Act.connect 0, Act.connect 1],
          [("relayB:443", 0)]) := by
  refine ⟨rfl, by decide, rfl⟩

/-- Claim C7 as amended.  On a manager without a primary client both
`RelayAddress` and `OpenConn` complete with the not-connected error, for every
address and peer key, without a dial and without a change to the manager, its
registry or the tracks.  A `Serve` that returns its connect error leaves the
client it made as the primary client and the registry as it was; on the state
it leaves, `RelayAddress` completes with exactly what that client answers to
`RelayRemoteAddress`, and `OpenConn` completes with the not-connected error
whenever that client fails to report an address, whatever its error; in both
cases without a dial and without a change to the manager or the tracks. -/
theorem C7_not_connected_before_serve {σ : Type} (env : Env σ) (st0 : State σ)
    (serverAddress peerKey : String) :
    (st0.m.relayClient = none →
      ∃ stA actsA stO actsO,
          run env Manager.RelayAddress st0 = some (Ret.err errNotConnected, stA)
        ∧ stA.trace = st0.trace ++ actsA ∧ actsA.filter Act.isDial = []
        ∧ stA.m = st0.m ∧ stA.tracks = st0.tracks
        ∧ run env (Manager.OpenConn serverAddress peerKey) st0
            = some (Ret.err errNotConnected, stO)
        ∧ stO.trace = st0.trace ++ actsO ∧ actsO.filter Act.isDial = []
        ∧ actsO.filter Act.isStreamOpen = []
        ∧ stO.m.relayClients = st0.m.relayClients
        ∧ stO.m = st0.m ∧ stO.tracks = st0.tracks)
    ∧ (∀ e st, run env Manager.Serve st0 = some (some e, st) →
        st.m.relayClient = some st0.clients.length
        ∧ st.m.relayClients = st0.m.relayClients
        ∧ (∃ stA actsA,
            run env Manager.RelayAddress st
              = some (Ret.ofExcept (env.relayRemoteAddress st.world st0.clients.length).1, stA)
          ∧ stA.trace = st.trace ++ actsA ∧ actsA.filter Act.isDial = []
          ∧ stA.m = st.m ∧ stA.tracks = st.tracks)
        ∧ (∀ e2, (env.relayRemoteAddress st.world st0.clients.length).1 = .error e2 →
            ∃ stO actsO,
              run env (Manager.OpenConn serverAddress peerKey) st
                = some (Ret.err errNotConnected, stO)
            ∧ stO.trace = st.trace ++ actsO ∧ actsO.filter Act.isDial = []
            ∧ actsO.filter Act.isStreamOpen = []
            ∧ stO.m.relayClients = st.m.relayClients
            ∧ stO.m = st.m ∧ stO.tracks = st.tracks)) := by
  constructor
  · intro hc
    exact ⟨_, _, _, _, run_RelayAddress_nil env st0 hc, rfl, rfl, rfl, rfl,
      run_OpenConn_nil env st0 serverAddress peerKey hc, rfl, rfl, rfl, rfl, rfl, rfl⟩
  · intro e st hS
    rw [run_Serve] at hS
    simp only [Option.some.injEq, Prod.mk.injEq] at hS
    obtain ⟨-, rfl⟩ := hS
    refine ⟨rfl, rfl, ?_, ?_⟩
    · exact ⟨_, _, run_RelayAddress_some env _ st0.clients.length rfl, rfl, rfl, rfl, rfl⟩
    · intro e2 h2
      exact ⟨_, _, run_OpenConn_unreachable env _ st0.clients.length serverAddress peerKey e2
        rfl h2, rfl, rfl, rfl, rfl, rfl, rfl⟩

/-- Witness of C7 as amended: the manager with home `relayDown:443`, before
`Serve` and after the `Serve` whose dial is refused. -/
theorem C7_not_connected_before_serve_witness :
    (downStart.m.relayClient = none
      ∧ run scenarioEnv Manager.Serve downStart = some (some "connection refused", scenarioDown)
      ∧ (scenarioEnv.relayRemoteAddress scenarioDown.world 0).1
          = .error "relay client not connected")
    ∧ (∃ stA actsA stO actsO,
          run scenarioEnv Manager.RelayAddress downStart = some (Ret.err errNotConnected, stA)
        ∧ stA.trace = downStart.trace ++ actsA ∧ actsA.filter Act.isDial = []
        ∧ stA.m = downStart.m ∧ stA.tracks = downStart.tracks
        ∧ run scenarioEnv (Manager.OpenConn "relayB:443" "P3") downStart
            = some (Ret.err errNotConnected, stO)
        ∧ stO.trace = downStart.trace ++ actsO ∧ actsO.filter Act.isDial = []
        ∧ actsO.filter Act.isStreamOpen = []
        ∧ stO.m.relayClients = downStart.m.relayClients
        ∧ stO.m = downStart.m ∧ stO.tracks = downStart.tracks)
    ∧ scenarioDown.m.relayClient = some 0
    ∧ scenarioDown.m.relayClients = downStart.m.relayClients
    ∧ (∃ stA actsA,
          run scenarioEnv Manager.RelayAddress scenarioDown
            = some (Ret.ofExcept (scenarioEnv.relayRemoteAddress scenarioDown.world 0).1, stA)
        ∧ stA.trace = scenarioDown.trace ++ actsA ∧ actsA.filter Act.isDial = []
        ∧ stA.m = scenarioDown.m ∧ stA.tracks = scenarioDown.tracks)
    ∧ (∃ stO actsO,
          run scenarioEnv (Manager.OpenConn "relayB:443" "P3") scenarioDown
            = some (Ret.err errNotConnected, stO)
        ∧ stO.trace = scenarioDown.trace ++ actsO ∧ actsO.filter Act.isDial = []
        ∧ actsO.filter Act.isStreamOpen = []
        ∧ stO.m.relayClients = scenarioDown.m.relayClients
        ∧ stO.m = scenarioDown.m ∧ stO.tracks = scenarioDown.tracks) :=
  ⟨⟨rfl, rfl, rfl⟩,
    (C7_not_connected_before_serve scenarioEnv downStart "relayB:443" "P3").1 rfl,
    ((C7_not_connected_before_serve scenarioEnv downStart "relayB:443" "P3").2
      "connection refused" scenarioDown rfl).1,
    ((C7_not_connected_before_serve scenarioEnv downStart "relayB:443" "P3").2
      "connection refused" scenarioDown rfl).2.1,
    ((C7_not_connected_before_serve scenarioEnv downStart "relayB:443" "P3").2
      "connection refused" scenarioDown rfl).2.2.1,
    ((C7_not_connected_before_serve scenarioEnv downStart "relayB:443" "P3").2
      "connection refused" scenarioDown rfl).2.2.2 "relay client not connected" rfl⟩

/-- Claim C9.  When nobody holds the registry mutex, `deleteRelayConn(address)`
completes; afterwards the registry has no entry for `address`, whether or not
it had one, every other address has the entry it had, and a second
`deleteRelayConn(address)` completes and leaves the registry as the first call
left it. -/
theorem C9_deleteRelayConn_idempotent {σ : Type} (env : Env σ) (st : State σ) (address : String)
    (hMu : st.m.relayClientsMutex = RWMutex.free) :
    ∃ st1 st2,
        run env (Manager.deleteRelayConn address) st = some ((), st1)
      ∧ st1.m.relayClients.get address = none
      ∧ (∀ k, k ≠ address → st1.m.relayClients.get k = st.m.relayClients.get k)
      ∧ run env (Manager.deleteRelayConn address) st1 = some ((), st2)
      ∧ st2.m.relayClients = st1.m.relayClients := by
  refine ⟨_, _, run_deleteRelayConn env st address hMu, Registry.get_delete_self _ _,
    fun k hk => Registry.get_delete_ne _ _ _ hk, run_deleteRelayConn env _ address hMu, ?_⟩
  exact Registry.delete_delete _ _

/-- Witness of C9: deleting `relayB:443` in the scenario after the foreign dial. -/
theorem C9_deleteRelayConn_idempotent_witness :
    scenarioForeign.m.relayClientsMutex = RWMutex.free
    ∧ ∃ st1 st2,
        run scenarioEnv (Manager.deleteRelayConn "relayB:443") scenarioForeign = some ((), st1)
      ∧ st1.m.relayClients.get "relayB:443" = none
      ∧ (∀ k, k ≠ "relayB:443" →
          st1.m.relayClients.get k = scenarioForeign.m.relayClients.get k)
      ∧ run scenarioEnv (Manager.deleteRelayConn "relayB:443") st1 = some ((), st2)
      ∧ st2.m.relayClients = st1.m.relayClients :=
  ⟨rfl, C9_deleteRelayConn_idempotent scenarioEnv scenarioForeign "relayB:443" rfl⟩

/-- Claim C8, evaluated on the code.  Two goroutines call
`OpenConn("relayB:443", "P3")` on the served manager of the scenario, which has
no track for that address.  In the interleaving `raceBothMiss` both look the
address up before either stores its track: both complete, but two dials occur,
of the clients 1 and 2, both made for `relayB:443`, the second track replaces
the first in the registry and the callers get streams over different clients.
In the interleaving `raceSecondFinds` the second goroutine finds the track of
the first and has to wait for its lock; one dial occurs, and once the first has
released the track the second makes its call through the nil client pointer of
the track instead of the established client 1. -/
theorem C8_concurrent_callers_diverge :
    (Conc.runSchedule scenarioEnv raceBothMiss raceStart).map
        (fun c => (c.results,
          (c.shared.trace.drop scenarioServed.trace.length).filter Act.isDial,
          c.shared.clients.map Client.serverAddress,
          c.shared.m.relayClients))
      = some ([some (.ok (Conn.mk 1 "P3")), some (.ok (Conn.mk 2 "P3"))],
          [Act.connect 1, Act.connect 2],
          ["relayA:443", "relayB:443", "relayB:443"],
          [("relayB:443", 1)])
    ∧ (Conc.runSchedule scenarioEnv (List.replicate 11 0 ++ List.replicate 5 1) raceStart).map
        (fun c => ((c.step scenarioEnv 1).isSome, (c.step scenarioEnv 0).isSome))
      = some (false, true)
    ∧ (Conc.runSchedule scenarioEnv raceSecondFinds raceStart).map
        (fun c => (c.results,
          (c.shared.trace.drop scenarioServed.trace.length).filter Act.isDial,
          c.shared.m.relayClients, c.shared.tracks))
      = some ([some (.ok (Conn.mk 1 "P3")), some .nilReceiver],
          [Act.connect 1],
          [("relayB:443", 0)],
          [RelayTrack.mk RWMutex.free none]) := by
  refine ⟨?_, ?_, ?_⟩ <;> rfl

/-- Counterexample to C10 as stated.  In the scenario after the foreign dial,
`openConnVia("relayB:443", "P3")` finds the track 0, and its lock operations
are, in order: registry `RLock`, track `RLock`, registry `RUnlock`, track
`RUnlock`.  The release of the registry's read lock does not precede the
acquisition of the track's read lock; it follows it. -/
theorem C10_counterexample :
    (run scenarioEnv (Manager.openConnVia "relayB:443" "P3") scenarioForeign).map
        (fun p => (lockOps (p.2.trace.drop scenarioForeign.trace.length),
          precedes Act.mapRUnlock (Act.trackRLock 0)
            (lockOps (p.2.trace.drop scenarioForeign.trace.length)),
          precedes (Act.trackRLock 0) Act.mapRUnlock
            (lockOps (p.2.trace.drop scenarioForeign.trace.length))))
      = some ([Act.mapRLock, Act.trackRLock 0, Act.mapRUnlock, Act.trackRUnlock 0],
          false, true) := by
  rfl

/-- Claim C10 as amended.  When `openConnVia` finds a track for the address and
neither the registry nor the track is write-locked, the call completes and its
actions are, in this order: registry `RLock`, the lookup, track `RLock`,
registry `RUnlock`, the read of the track's client, stream-open, track
`RUnlock`.  So the registry's read lock is held while the track's read lock is
acquired, and it is released right after that, before the stream-open. -/
theorem C10_registry_lock_released_after_track_lock {σ : Type} (env : Env σ) (st : State σ)
    (serverAddress peerKey : String) (rt : TrackRef) (t : RelayTrack)
    (hFound : st.m.relayClients.get serverAddress = some rt)
    (hTrack : st.tracks[rt]? = some t)
    (hMu : st.m.relayClientsMutex.writer = false)
    (hTmu : t.mu.writer = false) :
    ∃ r st1 acts, run env (Manager.openConnVia serverAddress peerKey) st = some (r, st1)
      ∧ st1.trace = st.trace ++ acts
      ∧ acts = [Act.mapRLock, Act.mapGet serverAddress, Act.trackRLock rt, Act.mapRUnlock,
          Act.trackLoadClient rt, Act.openConn t.relayClient peerKey, Act.trackRUnlock rt]
      ∧ lockOps acts = [Act.mapRLock, Act.trackRLock rt, Act.mapRUnlock, Act.trackRUnlock rt]
      ∧ precedes (Act.trackRLock rt) Act.mapRUnlock (lockOps acts) = true
      ∧ precedes Act.mapRUnlock (Act.openConn t.relayClient peerKey) acts = true := by
  refine ⟨_, _, _, run_openConnVia_found env st serverAddress peerKey rt t hFound hTrack hMu hTmu,
    rfl, rfl, rfl, ?_, ?_⟩
  · simp [lockOps, foundActs, List.filter, Act.isLockOp, precedes, List.indexOf_cons]
  · simp [foundActs, precedes, List.indexOf_cons]

/-- Witness of C10 as amended: the scenario after the foreign dial. -/
theorem C10_registry_lock_released_after_track_lock_witness :
    (scenarioForeign.m.relayClients.get "relayB:443" = some 0
      ∧ scenarioForeign.tracks[0]? = some NewRelayTrack
      ∧ scenarioForeign.m.relayClientsMutex.writer = false
      ∧ NewRelayTrack.mu.writer = false)
    ∧ ∃ r st1 acts,
        run scenarioEnv (Manager.openConnVia "relayB:443" "P3") scenarioForeign = some (r, st1)
      ∧ st1.trace = scenarioForeign.trace ++ acts
      ∧ acts = [Act.mapRLock, Act.mapGet "relayB:443", Act.trackRLock 0, Act.mapRUnlock,
          Act.trackLoadClient 0, Act.openConn NewRelayTrack.relayClient "P3", Act.trackRUnlock 0]
      ∧ lockOps acts = [Act.mapRLock, Act.trackRLock 0, Act.mapRUnlock, Act.trackRUnlock 0]
      ∧ precedes (Act.trackRLock 0) Act.mapRUnlock (lockOps acts) = true
      ∧ precedes Act.mapRUnlock (Act.openConn NewRelayTrack.relayClient "P3") acts = true :=
  ⟨⟨rfl, rfl, rfl, rfl⟩,
    C10_registry_lock_released_after_track_lock scenarioEnv scenarioForeign "relayB:443" "P3" 0
      NewRelayTrack rfl rfl rfl rfl⟩

end RelayClient
